import Mathlib

/-!
Verification of the path-mapping, conditional-inclusion and copy-orchestration
logic of shallow-backup (src/shallow_backup/backup.py and
src/shallow_backup/reinstall.py), as a shallow embedding.

Filesystem reads are an oracle (structure FS); filesystem writes and external
commands are modelled as an emitted effect trace (inductive Eff).  Python
string operations used by the source are translated to executable functions
over the character list of a String.
-/

/-- Characters considered safe by Python shlex.quote: ASCII letters, digits,
and the characters _ @ % + = : , . / - (the complement of the _find_unsafe
regex with re.ASCII). -/
def shlexSafeChar (c : Char) : Bool :=
  c.isAlpha || c.isDigit || c = '_' || c = '@' || c = '%' || c = '+' || c = '=' ||
    c = ':' || c = ',' || c = '.' || c = '/' || c = '-'

/-- The single-quote character as a string (ASCII 39). -/
def squoteS : String := String.mk [Char.ofNat 39]

/-- Replace every occurrence of pat by rep in a character list, with explicit
fuel so the function is structurally recursive; with fuel at least the length
of the input this is Python str.replace for a non-empty pattern. -/
def replaceFuel (pat rep : List Char) : Nat → List Char → List Char
  | 0, s => s
  | _ + 1, [] => []
  | fuel + 1, c :: rest =>
    if pat.isPrefixOf (c :: rest) && !pat.isEmpty then
      rep ++ replaceFuel pat rep fuel ((c :: rest).drop pat.length)
    else
      c :: replaceFuel pat rep fuel rest

/-- Python str.replace (all occurrences, non-empty pattern). -/
def pyReplace (s pat rep : String) : String :=
  ⟨replaceFuel pat.data rep.data s.data.length s.data⟩

/-- Python shlex.quote: the empty string becomes two quotes; a string of only
safe characters is returned unchanged; otherwise the string is wrapped in
single quotes with every embedded single quote escaped. -/
def shlexQuote (s : String) : String :=
  if s = "" then squoteS ++ squoteS
  else if s.data.all shlexSafeChar then s
  else squoteS ++ pyReplace s squoteS (squoteS ++ "\"" ++ squoteS ++ "\"" ++ squoteS) ++ squoteS

/-- Python str.startswith. -/
def pyStartsWith (s pre : String) : Bool :=
  decide (s.data.take pre.data.length = pre.data)

/-- Python str.endswith. -/
def pyEndsWith (s suf : String) : Bool :=
  List.isSuffixOf suf.data s.data

/-- Python s[n:] (character slicing from index n). -/
def pyDropStr (s : String) (n : Nat) : String := ⟨s.data.drop n⟩

/-- posixpath os.path.join for two components: an absolute second component
replaces the first; otherwise the components are joined with a single "/". -/
def pyJoin (a b : String) : String :=
  if pyStartsWith b "/" then b
  else if a = "" then b
  else if pyEndsWith a "/" then a ++ b
  else a ++ "/" ++ b

/-- posixpath os.path.split(p)[0]: everything before the last "/", with
trailing slashes stripped unless the head is entirely slashes. -/
def pySplitHead (p : String) : String :=
  let cs := p.data
  let tailLen := (cs.reverse.takeWhile (fun c => !(c == '/'))).length
  let head := cs.take (cs.length - tailLen)
  if head.isEmpty || head.all (fun c => c == '/') then ⟨head⟩
  else ⟨(head.reverse.dropWhile (fun c => c == '/')).reverse⟩

/-- pathlib Path(p).parent for paths without redundant separators: drop the
last component; "." when there is no directory part, "/" below the root. -/
def pathParent (p : String) : String :=
  let cs := if p.data.all (fun c => c == '/') then p.data
            else (p.data.reverse.dropWhile (fun c => c == '/')).reverse
  let tailLen := (cs.reverse.takeWhile (fun c => !(c == '/'))).length
  if tailLen == cs.length then "."
  else
    let head := cs.take (cs.length - tailLen)
    if head.all (fun c => c == '/') then "/"
    else ⟨(head.reverse.dropWhile (fun c => c == '/')).reverse⟩

/-- Python s.split("/")[-1]: the part of s after its last "/". -/
def pyLastComponent (s : String) : String :=
  ⟨(s.data.reverse.takeWhile (fun c => !(c == '/'))).reverse⟩

/-- Per-dotfile options from the config: the two inclusion conditions
(backup.py line 35, reinstall.py line 28). -/
structure DotOptions where
  backup_condition : String
  reinstall_condition : String
deriving DecidableEq

/-- Read-only filesystem oracle: os.path.isdir, os.path.isfile,
os.path.exists, os.listdir, and get_abs_path_subfiles (the full paths of all
files below a directory, per the comment at reinstall.py lines 20-22). -/
structure FS where
  isDir : String → Bool
  isFile : String → Bool
  pathExists : String → Bool
  listDir : String → List String
  subfiles : String → List String

/-- Observable effects of the backup/reinstall operations: directory
preparation and creation, the four copying primitives used by the source
(shutil.copyfile, copy_dir_if_valid, shutil.copytree, shutil.copy),
external commands (run_cmd, run_cmd_write_stdout, and shell inclusion
conditions), the npm list rewrite, and error prints. -/
inductive Eff where
  | prepDir (p : String)
  | mkdir (p : String)
  | copyFile (src dst : String)
  | copyDir (src dst : String)
  | copyTree (src dst : String)
  | copyPy (src dst : String)
  | runCmd (c : String)
  | runCmdWrite (c dst : String)
  | evalCond (c : String)
  | writeFileEff (p : String)
  | removeFileEff (p : String)
  | printRed (s : String)
deriving DecidableEq

/-- Modelled from the spec: evaluate_condition lives in shallow_backup.utils,
which is not under src/; the spec says the Condition Evaluator "runs an
optional shell condition per entry to decide inclusion".  An empty condition
includes the entry without running anything; a non-empty condition is run as
a shell command (oracle condRun gives its truth value). -/
def evaluateCondition (condition : String) (condRun : String → Bool) : Bool :=
  if condition = "" then true else condRun condition

/-- Modelled from the spec: the command execution performed by
evaluate_condition, as an effect list (empty for an empty condition). -/
def evalCondEffs (condition : String) : List Eff :=
  if condition = "" then [] else [Eff.evalCond condition]

/-- backup.py lines 42-51: the (installed path, backup destination) pair for
one config entry.  An absolute path keeps the original path as source and
flattens "/rest" to the quoted name ":rest" inside the backup tree; a home
dotfile is joined under home_path and backup_dest_path. -/
def backupPairOf (backup_dest_path home_path dotfile_path : String) : String × String :=
  if pyStartsWith dotfile_path "/" then
    (dotfile_path, shlexQuote (pyJoin backup_dest_path (shlexQuote (":" ++ pyDropStr dotfile_path 1))))
  else
    (shlexQuote (pyJoin home_path dotfile_path), shlexQuote (pyJoin backup_dest_path dotfile_path))

/-- backup.py line 44 in isolation: the escaping of an absolute installed
path to its backup-tree-relative name, quote(":" + path[1:]). -/
def escapeAbsName (dotfile_path : String) : String :=
  shlexQuote (":" ++ pyDropStr dotfile_path 1)

/-- backup.py lines 32-51: the loop collecting dot_path_pairs, skipping any
entry whose backup condition does not evaluate true. -/
def dotPathPairs : List (String × DotOptions) → String → String → (String → Bool) → List (String × String)
  | [], _, _, _ => []
  | (p, opts) :: rest, dest, home, condRun =>
    if evaluateCondition opts.backup_condition condRun then
      backupPairOf dest home p :: dotPathPairs rest dest home condRun
    else
      dotPathPairs rest dest home condRun

/-- The condition-evaluation effects of the backup_dotfiles collection loop,
one (optional) shell command per config entry (backup.py lines 33-37). -/
def backupCondEffs (config : List (String × DotOptions)) : List Eff :=
  config.flatMap (fun e => evalCondEffs e.2.backup_condition)

/-- A multiprocessing.Process as created at backup.py lines 84 and 90: the
target callable and its arguments, captured as the effect it will perform. -/
structure PyProcess where
  target : Eff
deriving DecidableEq

/-- The pool state during the dispatch: the processes currently running and
the effects already performed (in completion order). -/
structure PoolState where
  running : List PyProcess
  finished : List Eff
deriving DecidableEq

/-- p.start(): the process begins running. -/
def procStart (st : PoolState) (p : PyProcess) : PoolState :=
  { st with running := st.running ++ [p] }

/-- p.join(): wait for the process; its target has then executed, so its
effect is appended to the finished trace and it leaves the running set. -/
def procJoin (st : PoolState) (p : PyProcess) : PoolState :=
  { running := st.running.erase p, finished := st.finished ++ [p.target] }

/-- backup.py lines 83-86 and 89-92: for each item, create a process, start
it, and join it immediately before the next iteration. -/
def mpStartJoinLoop (st : PoolState) : List PyProcess → PoolState
  | [] => st
  | p :: rest => mpStartJoinLoop (procJoin (procStart st p) p) rest

/-- backup.py lines 81-92: dispatch copy_dir_if_valid over all dotfolder
pairs, then copyfile over all dotfile pairs, via start-then-join processes. -/
def mpDispatchCopies (dotfolders dotfiles : List (String × String)) : List Eff :=
  let st0 : PoolState := { running := [], finished := [] }
  let st1 := mpStartJoinLoop st0 (dotfolders.map (fun x => { target := Eff.copyDir x.1 x.2 }))
  let st2 := mpStartJoinLoop st1 (dotfiles.map (fun x => { target := Eff.copyFile x.1 x.2 }))
  st2.finished

/-- Spec-modelled for the refinement claim, following the spec's words: the
Copy Executor as "a plain sequential loop" over the same copy operations, all
dotfolders first, then all dotfiles, each in list order. -/
def specSequentialCopies (dotfolders dotfiles : List (String × String)) : List Eff :=
  dotfolders.map (fun x => Eff.copyDir x.1 x.2) ++ dotfiles.map (fun x => Eff.copyFile x.1 x.2)

/-- backup.py backup_dotfiles (lines 13-92) as an effect trace: the overwrite
prompt unless dry_run, the per-entry condition commands, and unless dry_run
the mkdir-per-destination loop (line 77: dotfiles then dotfolders) followed
by the process dispatch (dotfolders then dotfiles).  Entries are split into
dotfolders and dotfiles by os.path.isdir on the installed path (line 58). -/
def backupDotfilesTrace (config : List (String × DotOptions)) (backup_dest_path home_path : String)
    (fs : FS) (condRun : String → Bool) (dry_run _verbose : Bool) : List Eff :=
  (if dry_run then [] else [Eff.prepDir backup_dest_path]) ++
  backupCondEffs config ++
  (if dry_run then [] else
    let pairs := dotPathPairs config backup_dest_path home_path condRun
    let dotfolders := pairs.filter (fun x => fs.isDir x.1)
    let dotfiles := pairs.filter (fun x => !fs.isDir x.1)
    ((dotfiles ++ dotfolders).map (fun x => Eff.mkdir (pySplitHead x.2))) ++
    mpDispatchCopies dotfolders dotfiles)

/-- backup.py lines 111-125: the effects of one config_mapping entry in
backup_configs.  A directory source is copied with copytree to the quoted
destination; a file source gets its (unquoted) destination's parent created
and is copied with copyfile to the quoted destination; otherwise nothing. -/
def backupConfigsEntry (backup_path : String) (fs : FS) (dry_run : Bool)
    (pr : String × String) : List Eff :=
  let dest := pyJoin backup_path pr.2
  if dry_run then []
  else
    let quoted_dest := shlexQuote dest
    if fs.isDir pr.1 then [Eff.copyTree pr.1 quoted_dest]
    else if fs.isFile pr.1 then [Eff.mkdir (pathParent dest), Eff.copyFile pr.1 quoted_dest]
    else []

/-- backup.py backup_configs (lines 95-125) as an effect trace. -/
def backupConfigsTrace (config_mapping : List (String × String)) (backup_path : String)
    (fs : FS) (dry_run _verbose : Bool) : List Eff :=
  (if dry_run then [] else [Eff.prepDir backup_path]) ++
  config_mapping.flatMap (backupConfigsEntry backup_path fs dry_run)

/-- backup.py lines 132-136: run_cmd_if_no_dry_run as an effect list. -/
def runCmdWriteStep (dry_run : Bool) (command dest : String) : List Eff :=
  if dry_run then [] else [Eff.runCmdWrite command dest]

/-- backup.py backup_packages (lines 128-215) as an effect trace.  cargoBinDir
and applicationsDir stand for home_prefix(".cargo/bin/") and
get_applications_dir(); cmdRes gives the exit status of a command (used by
the npm success chain at lines 180-190). -/
def backupPackagesTrace (backup_path cargoBinDir applicationsDir : String)
    (cmdRes : String → Int) (dry_run _verbose : Bool) : List Eff :=
  (if dry_run then [] else [Eff.prepDir backup_path]) ++
  (if dry_run then [] else [Eff.runCmd ("brew bundle dump --file " ++ backup_path ++ "/brew_list.txt")]) ++
  runCmdWriteStep dry_run
    ("gem list | tail -n+1 | sed " ++ squoteS ++ "s/(/--version /" ++ squoteS ++
      " | sed " ++ squoteS ++ "s/)//" ++ squoteS)
    (backup_path ++ "/gem_list.txt") ++
  runCmdWriteStep dry_run ("ls " ++ cargoBinDir) (backup_path ++ "/cargo_list.txt") ++
  runCmdWriteStep dry_run "pip list --format=freeze" (backup_path ++ "/pip_list.txt") ++
  runCmdWriteStep dry_run "pip3 list --format=freeze" (backup_path ++ "/pip3_list.txt") ++
  (let npmCmd := "npm ls --global --parseable=true --depth=0"
   let tempFilePath := backup_path ++ "/npm_temp_list.txt"
   runCmdWriteStep dry_run npmCmd tempFilePath ++
   (if (if dry_run then (-1 : Int) else cmdRes npmCmd) == 0 then
      [Eff.writeFileEff (backup_path ++ "/npm_list.txt"), Eff.removeFileEff tempFilePath]
    else [])) ++
  runCmdWriteStep dry_run "apm list --installed --bare" (backup_path ++ "/apm_list.txt") ++
  runCmdWriteStep dry_run "code --list-extensions --show-versions" (backup_path ++ "/vscode_list.txt") ++
  runCmdWriteStep dry_run "port installed requested" (backup_path ++ "/macports_list.txt") ++
  runCmdWriteStep dry_run ("ls " ++ applicationsDir) (backup_path ++ "/system_apps_list.txt")

/-- backup.py backup_fonts (lines 218-238) as an effect trace.  fonts_path
stands for get_fonts_dir().  Each listed name ending in ".otf" or ".ttf" is
quoted and joined under fonts_path (line 227); if that (quoted) path exists
it is copied to backup_path under its last path component. -/
def backupFontsTrace (backup_path fonts_path : String) (fs : FS)
    (dry_run _verbose : Bool) : List Eff :=
  (if dry_run then [] else [Eff.prepDir backup_path]) ++
  (if fs.isDir fonts_path then
    (((fs.listDir fonts_path).filter (fun f => pyEndsWith f ".otf" || pyEndsWith f ".ttf")).map
        (fun f => shlexQuote (pyJoin fonts_path f))).flatMap
      (fun font =>
        let dest := pyJoin backup_path (pyLastComponent font)
        if fs.pathExists font then (if dry_run then [] else [Eff.copyFile font dest]) else [])
  else [Eff.printRed "Skipping fonts backup. No fonts directory found."])

/-- reinstall.py lines 34-39: the reinstall sources contributed by one config
entry: the joined path itself if it is a file, else all its subfiles. -/
def sourcesOfEntry (dots_path : String) (fs : FS) (dotfile_path : String) : List String :=
  let real_path := pyJoin dots_path dotfile_path
  if fs.isFile real_path then [real_path] else fs.subfiles real_path

/-- reinstall.py lines 25-39: the loop collecting dotfiles_to_reinstall,
skipping any entry whose reinstall condition does not evaluate true. -/
def dotfilesToReinstall : List (String × DotOptions) → String → FS → (String → Bool) → List String
  | [], _, _, _ => []
  | (p, opts) :: rest, dots_path, fs, condRun =>
    if evaluateCondition opts.reinstall_condition condRun then
      sourcesOfEntry dots_path fs p ++ dotfilesToReinstall rest dots_path fs condRun
    else
      dotfilesToReinstall rest dots_path fs condRun

/-- The condition-evaluation effects of the reinstall collection loop
(reinstall.py lines 26-30). -/
def reinstallCondEffs (config : List (String × DotOptions)) : List Eff :=
  config.flatMap (fun e => evalCondEffs e.2.reinstall_condition)

/-- reinstall.py lines 46-51: the destination for one reinstall source: a
":"-prefixed source maps back to "/" + rest; otherwise dots_path is replaced
by home_path + "/" in the source. -/
def reinstallDestFor (dots_path home_path source : String) : String :=
  if pyStartsWith source ":" then "/" ++ pyDropStr source 1
  else pyReplace source dots_path (home_path ++ "/")

/-- reinstall.py lines 44-52: the (source, dest) pairs for reinstallation. -/
def reinstallPairs (sources : List String) (dots_path home_path : String) : List (String × String) :=
  sources.map (fun s => (s, reinstallDestFor dots_path home_path s))

/-- reinstall.py reinstall_dots_sb (lines 14-70) as an effect trace: the
per-entry condition commands, then per (source, dest) pair, unless dry_run,
the parent mkdir and the shutil.copy (lines 61-64).  The SystemExit taken
when dots_path is empty (line 17) emits no effects and is not modelled. -/
def reinstallDotsTrace (config : List (String × DotOptions)) (dots_path home_path : String)
    (fs : FS) (condRun : String → Bool) (dry_run _verbose : Bool) : List Eff :=
  reinstallCondEffs config ++
  (reinstallPairs (dotfilesToReinstall config dots_path fs condRun) dots_path home_path).flatMap
    (fun pr => if dry_run then [] else [Eff.mkdir (pathParent pr.2), Eff.copyPy pr.1 pr.2])

/-- The Python exception kinds relevant to the reinstall copy loop. -/
inductive PyExc where
  | permissionError
  | fileNotFoundError
  | otherError
deriving DecidableEq

/-- reinstall.py lines 63-68: which exception kinds the try/except around
shutil.copy catches (each is printed, and the loop continues). -/
def handledByReinstallDots : PyExc → Bool
  | PyExc.permissionError => true
  | PyExc.fileNotFoundError => true
  | PyExc.otherError => false

/-- reinstall.py lines 55-68, with failures: process each (source, dest)
pair; copyRes gives the exception raised by shutil.copy, if any.  A handled
exception is printed and the loop continues; an unhandled one propagates. -/
def reinstallCopyLoop (pairs : List (String × String))
    (copyRes : String → String → Option PyExc) (dry_run : Bool) : Except PyExc (List Eff) :=
  match pairs with
  | [] => Except.ok []
  | (s, d) :: rest =>
    if dry_run then reinstallCopyLoop rest copyRes dry_run
    else
      match copyRes s d with
      | none =>
        (reinstallCopyLoop rest copyRes dry_run).map
          (fun t => [Eff.mkdir (pathParent d), Eff.copyPy s d] ++ t)
      | some e =>
        if handledByReinstallDots e then
          (reinstallCopyLoop rest copyRes dry_run).map
            (fun t => [Eff.mkdir (pathParent d), Eff.copyPy s d, Eff.printRed "ERROR"] ++ t)
        else Except.error e

/-- reinstall.py reinstall_fonts_sb (lines 73-88) as an effect trace.
fonts_dir stands for get_fonts_dir(); the source iterates the subfiles of the
backup fonts directory and copies each (quoted) to the quoted destination. -/
def reinstallFontsTrace (fonts_path fonts_dir : String) (fs : FS)
    (dry_run _verbose : Bool) : List Eff :=
  (fs.subfiles fonts_path).flatMap
    (fun font =>
      let dest_path := shlexQuote (pyJoin fonts_dir (pyLastComponent font))
      if dry_run then [] else [Eff.copyFile (shlexQuote font) (shlexQuote dest_path)])

/-- reinstall.py lines 97-109: the effects of one config_mapping entry in
reinstall_configs_sb: the quoted backup source is copied (copytree for a
directory, copyfile for a file) to the quoted installed path, with no parent
directory creation. -/
def reinstallConfigsEntry (configs_path : String) (fs : FS) (dry_run : Bool)
    (pr : String × String) : List Eff :=
  let dest_path := shlexQuote pr.1
  let source_path := shlexQuote (pyJoin configs_path pr.2)
  if dry_run then []
  else if fs.isDir source_path then [Eff.copyTree source_path dest_path]
  else if fs.isFile source_path then [Eff.copyFile source_path dest_path]
  else []

/-- reinstall.py reinstall_configs_sb (lines 91-111) as an effect trace. -/
def reinstallConfigsTrace (config_mapping : List (String × String)) (configs_path : String)
    (fs : FS) (dry_run _verbose : Bool) : List Eff :=
  config_mapping.flatMap (reinstallConfigsEntry configs_path fs dry_run)

/-- reinstall.py lines 131-135: the set comprehension computing package_mgrs.
Its condition and element expression reference the name manager, which is
not bound anywhere (the loop variable is file), so Python raises NameError
when the condition is first evaluated, i.e. on any non-empty listing. -/
def computePackageMgrs (files : List String) : Except String (List String) :=
  match files with
  | [] => Except.ok []
  | _ :: _ => Except.error "NameError: name 'manager' is not defined"

/-- reinstall.py reinstall_packages_sb (lines 114-180): exit_if_dir_is_empty
aborts on an empty packages directory (line 122, modelled as SystemExit);
otherwise the package_mgrs comprehension raises NameError before any command
is constructed or run, so no effects are ever emitted. -/
def reinstallPackagesSb (files : List String) (_dry_run _verbose : Bool) : Except String (List Eff) :=
  match files with
  | [] => Except.error "SystemExit"
  | _ :: _ =>
    match computePackageMgrs files with
    | Except.error e => Except.error e
    | Except.ok _ => Except.ok []

/-- The effects actually performed by an Except-valued operation: none when
it raised. -/
def pkgEffects (r : Except String (List Eff)) : List Eff :=
  match r with
  | Except.error _ => []
  | Except.ok t => t

/-- The destination written by a copy effect, if it is one of the file copy
primitives (copytree creates its own destination tree via os.makedirs and is
excluded). -/
def writeDest : Eff → Option String
  | Eff.copyFile _ d => some d
  | Eff.copyPy _ d => some d
  | Eff.copyDir _ d => some d
  | _ => none

/-- Every copy effect in t is preceded (within acc followed by the part of t
before it) by an mkdir of the parent of its destination. -/
def pmbFrom (parentOf : String → String) (acc t : List Eff) : Prop :=
  ∀ t1 e t2 d, t = t1 ++ e :: t2 → writeDest e = some d → Eff.mkdir (parentOf d) ∈ acc ++ t1

/-- Every copy effect in the trace is preceded by an mkdir of the parent of
its destination. -/
def parentMkdirBefore (parentOf : String → String) (t : List Eff) : Prop :=
  pmbFrom parentOf [] t

/-- Whether an effect is a directory creation. -/
def effIsMkdir : Eff → Bool
  | Eff.mkdir _ => true
  | _ => false

/-- Effects permitted during a dry run: condition shell commands and
printed messages only; every filesystem modification and every other
external command is excluded. -/
def effDryOk : Eff → Bool
  | Eff.evalCond _ => true
  | Eff.printRed _ => true
  | _ => false

/-- Whether an effect runs an external shell command. -/
def effIsShellExec : Eff → Bool
  | Eff.runCmd _ => true
  | Eff.runCmdWrite _ _ => true
  | Eff.evalCond _ => true
  | _ => false

/-- A filesystem oracle on which nothing exists: every path is neither a
directory nor a file, and every listing is empty. -/
def emptyFS : FS :=
  { isDir := fun _ => false, isFile := fun _ => false, pathExists := fun _ => false,
    listDir := fun _ => [], subfiles := fun _ => [] }

/-- A concrete filesystem for the fonts counterexample: the fonts directory
"/fonts" exists and lists the single font file "a b.ttf", which exists at its
real path "/fonts/a b.ttf". -/
def fontsCexFS : FS :=
  { isDir := fun p => p == "/fonts", isFile := fun _ => false,
    pathExists := fun p => p == "/fonts/a b.ttf",
    listDir := fun p => if p == "/fonts" then ["a b.ttf"] else [],
    subfiles := fun _ => [] }

/-- A concrete filesystem with one shlex-safe font file "good.ttf". -/
def fontsOkFS : FS :=
  { isDir := fun p => p == "/fonts", isFile := fun _ => false,
    pathExists := fun p => p == "/fonts/good.ttf",
    listDir := fun p => if p == "/fonts" then ["good.ttf"] else [],
    subfiles := fun _ => [] }

/-- A concrete filesystem for the config-reinstall counterexample: the
backed-up config file "cfgs/app/cfg" exists as a file. -/
def configsCexFS : FS :=
  { isDir := fun _ => false, isFile := fun p => p == "cfgs/app/cfg",
    pathExists := fun _ => false, listDir := fun _ => [], subfiles := fun _ => [] }

/-- A concrete filesystem in which "/home/u/.config/app.cfg" is a file. -/
def configsOkSystemFS : FS :=
  { isDir := fun _ => false, isFile := fun p => p == "/home/u/.config/app.cfg",
    pathExists := fun _ => false, listDir := fun _ => [], subfiles := fun _ => [] }

/-- A concrete filesystem in which "/backup/configs/app/cfg" is a file. -/
def configsOkBackupFS : FS :=
  { isDir := fun _ => false, isFile := fun p => p == "/backup/configs/app/cfg",
    pathExists := fun _ => false, listDir := fun _ => [], subfiles := fun _ => [] }

/-- A concrete filesystem in which "/home/u/.config/nvim" is a directory. -/
def configsDirSystemFS : FS :=
  { isDir := fun p => p == "/home/u/.config/nvim", isFile := fun _ => false,
    pathExists := fun _ => false, listDir := fun _ => [], subfiles := fun _ => [] }

/-- A concrete filesystem in which "/backup/configs/nvim" is a directory. -/
def configsDirBackupFS : FS :=
  { isDir := fun p => p == "/backup/configs/nvim", isFile := fun _ => false,
    pathExists := fun _ => false, listDir := fun _ => [], subfiles := fun _ => [] }

/-- A concrete filesystem in which the backed-up config file "cfgs/app.cfg"
exists as a file. -/
def configsNoMkdirFS : FS :=
  { isDir := fun _ => false, isFile := fun p => p == "cfgs/app.cfg",
    pathExists := fun _ => false, listDir := fun _ => [], subfiles := fun _ => [] }

/-! ## Helper lemmas -/

theorem data_append_str (a b : String) : (a ++ b).data = a.data ++ b.data :=
  String.data_append a b

theorem shlexQuote_eq_self (s : String) (hne : s ≠ "")
    (hsafe : s.data.all shlexSafeChar = true) : shlexQuote s = s := by
  unfold shlexQuote
  rw [if_neg hne, if_pos hsafe]

theorem colon_append_ne_empty (rest : String) : (":" ++ rest) ≠ "" := by
  intro h
  have := congrArg String.data h
  simp [String.data_append] at this

theorem colon_append_all_safe (rest : String) (hsafe : rest.data.all shlexSafeChar = true) :
    ((":" ++ rest) : String).data.all shlexSafeChar = true := by
  rw [String.data_append, List.all_append, hsafe]
  decide

theorem pyDropStr_one_append (c rest : String) (hc : c.data.length = 1) :
    pyDropStr (c ++ rest) 1 = rest := by
  apply String.ext
  simp only [pyDropStr, String.data_append]
  obtain ⟨ch, hch⟩ := List.length_eq_one.mp hc
  rw [hch]
  simp

theorem pyStartsWith_append_self (c rest : String) (hc : c.data.length = 1) :
    pyStartsWith (c ++ rest) c = true := by
  simp only [pyStartsWith, String.data_append, decide_eq_true_eq]
  obtain ⟨ch, hch⟩ := List.length_eq_one.mp hc
  rw [hch]
  simp

theorem dotPathPairs_eq_filter_map (config : List (String × DotOptions)) (dest home : String)
    (condRun : String → Bool) :
    dotPathPairs config dest home condRun =
      (config.filter (fun e => evaluateCondition e.2.backup_condition condRun)).map
        (fun e => backupPairOf dest home e.1) := by
  induction config with
  | nil => rfl
  | cons e rest ih =>
    obtain ⟨p, opts⟩ := e
    cases hc : evaluateCondition opts.backup_condition condRun <;>
      simp [dotPathPairs, List.filter_cons, hc, ih]

theorem dotfilesToReinstall_eq_filter_flatMap (config : List (String × DotOptions))
    (dots_path : String) (fs : FS) (condRun : String → Bool) :
    dotfilesToReinstall config dots_path fs condRun =
      (config.filter (fun e => evaluateCondition e.2.reinstall_condition condRun)).flatMap
        (fun e => sourcesOfEntry dots_path fs e.1) := by
  induction config with
  | nil => rfl
  | cons e rest ih =>
    obtain ⟨p, opts⟩ := e
    cases hc : evaluateCondition opts.reinstall_condition condRun <;>
      simp [dotfilesToReinstall, List.filter_cons, hc, ih]

theorem mpStartJoinLoop_finished (ps : List PyProcess) (f : List Eff) :
    mpStartJoinLoop { running := [], finished := f } ps =
      { running := [], finished := f ++ ps.map (fun p => p.target) } := by
  induction ps generalizing f with
  | nil => simp [mpStartJoinLoop]
  | cons p rest ih =>
    simp [mpStartJoinLoop, procStart, procJoin, List.erase_cons_head, ih]

/-! ## Claim theorems -/

/-- C1, counterexample: the claim says backup_dotfiles maps an absolute
installed path /p to the backup-tree-relative name obtained by replacing the
leading "/" with ":".  For the absolute config entry "/etc/a b" (a space is
not shlex-safe) the code produces quote(":etc/a b"), which wraps the name in
single quotes, so the produced name is not ":etc/a b". -/
theorem C1_escape_counterexample :
    pyStartsWith "/etc/a b" "/" = true ∧
    escapeAbsName "/etc/a b" = squoteS ++ ":etc/a b" ++ squoteS ∧
    escapeAbsName "/etc/a b" ≠ ":etc/a b" := by decide

/-- C1, amended: for a dotfile config entry "/" ++ rest made only of
shlex-safe characters, backup_dotfiles (backup.py line 44) maps it to the
backup-tree-relative name ":" ++ rest, and reinstall_dots_sb
(reinstall.py lines 47-48) maps any ":"-prefixed entry back to
"/" ++ rest, so the two transforms are mutually inverse on such entries. -/
theorem C1_escape_roundtrip (rest dots_path home_path : String)
    (hsafe : rest.data.all shlexSafeChar = true) :
    escapeAbsName ("/" ++ rest) = ":" ++ rest ∧
    reinstallDestFor dots_path home_path (":" ++ rest) = "/" ++ rest := by
  have hdrop : pyDropStr ("/" ++ rest) 1 = rest := pyDropStr_one_append "/" rest (by decide)
  have hname : escapeAbsName ("/" ++ rest) = ":" ++ rest := by
    unfold escapeAbsName
    rw [hdrop]
    exact shlexQuote_eq_self _ (colon_append_ne_empty rest) (colon_append_all_safe rest hsafe)
  refine ⟨hname, ?_⟩
  unfold reinstallDestFor
  rw [if_pos (pyStartsWith_append_self ":" rest (by decide))]
  rw [pyDropStr_one_append ":" rest (by decide)]

/-- C1, witness for the amended round trip at the concrete entry "/etc/ssh". -/
theorem C1_escape_roundtrip_witness :
    escapeAbsName ("/" ++ "etc/ssh") = ":" ++ "etc/ssh" ∧
    reinstallDestFor "/back/dotfiles" "/home/u" (":" ++ "etc/ssh") = "/" ++ "etc/ssh" :=
  C1_escape_roundtrip "etc/ssh" "/back/dotfiles" "/home/u" (by decide)

/-- C2: reinstall_packages_sb cannot restore anything: on any non-empty
packages directory (here one containing brew_list.txt) the set comprehension
at reinstall.py lines 131-135 references the undefined name manager and the
function raises NameError before running a single command. -/
theorem C2_packages_name_error :
    reinstallPackagesSb ["brew_list.txt"] false false =
      Except.error "NameError: name 'manager' is not defined" := rfl

/-- C3: inclusion conditions are evaluated independently per direction: the
backup pair list contains exactly the entries whose backup_condition
evaluates true (each mapped to its path pair), and the reinstall source list
contains exactly the contributions of entries whose reinstall_condition
evaluates true; an entry whose condition evaluates false contributes
nothing in that direction. -/
theorem C3_condition_gating (config : List (String × DotOptions)) (dest home dots_path : String)
    (fs : FS) (condRun : String → Bool) :
    dotPathPairs config dest home condRun =
      (config.filter (fun e => evaluateCondition e.2.backup_condition condRun)).map
        (fun e => backupPairOf dest home e.1) ∧
    dotfilesToReinstall config dots_path fs condRun =
      (config.filter (fun e => evaluateCondition e.2.reinstall_condition condRun)).flatMap
        (fun e => sourcesOfEntry dots_path fs e.1) :=
  ⟨dotPathPairs_eq_filter_map config dest home condRun,
   dotfilesToReinstall_eq_filter_flatMap config dots_path fs condRun⟩

/-- C7: the worker-per-item dispatch of backup_dotfiles starts each copy
process and joins it before the next one starts, so the performed copies are
exactly the plain sequential loop over the same operations: all dotfolders
first, then all dotfiles, each in list order. -/
theorem C7_dispatch_sequential (dotfolders dotfiles : List (String × String)) :
    mpDispatchCopies dotfolders dotfiles = specSequentialCopies dotfolders dotfiles := by
  simp [mpDispatchCopies, mpStartJoinLoop_finished, specSequentialCopies, List.map_map]
  rfl

theorem all_flatMap_dryOk {α : Type} (l : List α) (f : α → List Eff)
    (h : ∀ a, (f a).all effDryOk = true) : (l.flatMap f).all effDryOk = true := by
  induction l with
  | nil => rfl
  | cons a rest ih => simp [List.flatMap_cons, List.all_append, h a, ih]

theorem backupCondEffs_dryOk (config : List (String × DotOptions)) :
    (backupCondEffs config).all effDryOk = true := by
  refine all_flatMap_dryOk config _ (fun e => ?_)
  unfold evalCondEffs
  split <;> simp [effDryOk]

theorem reinstallCondEffs_dryOk (config : List (String × DotOptions)) :
    (reinstallCondEffs config).all effDryOk = true := by
  refine all_flatMap_dryOk config _ (fun e => ?_)
  unfold evalCondEffs
  split <;> simp [effDryOk]

/-- C9, counterexample: the claim says that with dry_run true no shell
command is executed.  With dry_run true, backup_dotfiles still evaluates the
backup_condition of the entry "/etc/x" as a shell command: its dry-run trace
is exactly that command execution. -/
theorem C9_dry_run_counterexample :
    backupDotfilesTrace [("/etc/x", { backup_condition := "test -f /etc/x", reinstall_condition := "" })]
        "/b" "/h" emptyFS (fun _ => false) true false =
      [Eff.evalCond "test -f /etc/x"] ∧
    effIsShellExec (Eff.evalCond "test -f /etc/x") = true := by
  constructor
  · rfl
  · rfl

/-- C9, amended: when dry_run is true, every backup and reinstall operation
performs no filesystem modification and runs no external command other than
the per-entry dotfile inclusion conditions, which backup_dotfiles and
reinstall_dots_sb still evaluate; dry-run traces contain only condition
commands and printed messages (and reinstall_packages_sb raises NameError or
SystemExit before performing any effect at all). -/
theorem C9_dry_run_frame (config : List (String × DotOptions))
    (config_mapping : List (String × String))
    (bp dest home dots cp fp fd cargoBinDir applicationsDir : String) (fs : FS)
    (condRun : String → Bool) (cmdRes : String → Int) (v : Bool) (files : List String) :
    (backupDotfilesTrace config dest home fs condRun true v).all effDryOk = true ∧
    (backupConfigsTrace config_mapping bp fs true v).all effDryOk = true ∧
    (backupPackagesTrace bp cargoBinDir applicationsDir cmdRes true v).all effDryOk = true ∧
    (backupFontsTrace bp fp fs true v).all effDryOk = true ∧
    (reinstallDotsTrace config dots home fs condRun true v).all effDryOk = true ∧
    (reinstallFontsTrace fp fd fs true v).all effDryOk = true ∧
    (reinstallConfigsTrace config_mapping cp fs true v).all effDryOk = true ∧
    (pkgEffects (reinstallPackagesSb files true v)).all effDryOk = true := by
  refine ⟨?_, ?_, ?_, ?_, ?_, ?_, ?_, ?_⟩
  · have h1 : backupDotfilesTrace config dest home fs condRun true v = backupCondEffs config := by
      simp [backupDotfilesTrace]
    rw [h1]
    exact backupCondEffs_dryOk config
  · have h2 : backupConfigsTrace config_mapping bp fs true v =
        config_mapping.flatMap (backupConfigsEntry bp fs true) := by
      simp [backupConfigsTrace]
    rw [h2]
    exact all_flatMap_dryOk _ _ (fun pr => rfl)
  · simp [backupPackagesTrace, runCmdWriteStep]
  · cases hd : fs.isDir fp <;> simp [backupFontsTrace, hd, effDryOk, ite_self]
  · have h5 : reinstallDotsTrace config dots home fs condRun true v = reinstallCondEffs config := by
      simp [reinstallDotsTrace]
    rw [h5]
    exact reinstallCondEffs_dryOk config
  · exact all_flatMap_dryOk _ _ (fun f => rfl)
  · exact all_flatMap_dryOk _ _ (fun pr => rfl)
  · cases files <;> rfl

/-- C10, counterexample: the fonts directory lists "a b.ttf", a ".ttf" file
that exists at "/fonts/a b.ttf", yet backup_fonts copies nothing: the path
is passed through shlex.quote (backup.py line 227), the quoted string is a
different, nonexistent path, and the os.path.exists guard rejects it. -/
theorem C10_fonts_counterexample :
    pyEndsWith "a b.ttf" ".ttf" = true ∧
    fontsCexFS.pathExists "/fonts/a b.ttf" = true ∧
    backupFontsTrace "/b" "/fonts" fontsCexFS false false = [Eff.prepDir "/b"] := by
  refine ⟨by decide, by decide, ?_⟩
  decide

/-- C10, amended: backup_fonts copies exactly those listed files whose names
end in ".otf" or ".ttf" and whose shlex-quoted full path exists on the
filesystem (for names made only of shlex-safe characters this is the file
itself); every other file is excluded; and if the fonts directory does not
exist it copies nothing and prints a skip message instead of failing. -/
theorem C10_fonts_copies (backup_path fonts_path : String) (fs : FS) (dry v : Bool)
    (src dst : String) :
    (Eff.copyFile src dst ∈ backupFontsTrace backup_path fonts_path fs dry v ↔
      (fs.isDir fonts_path = true ∧ dry = false ∧
        ∃ name, name ∈ fs.listDir fonts_path ∧
          (pyEndsWith name ".otf" || pyEndsWith name ".ttf") = true ∧
          fs.pathExists (shlexQuote (pyJoin fonts_path name)) = true ∧
          src = shlexQuote (pyJoin fonts_path name) ∧
          dst = pyJoin backup_path (pyLastComponent (shlexQuote (pyJoin fonts_path name))))) ∧
    (fs.isDir fonts_path = false →
      backupFontsTrace backup_path fonts_path fs dry v =
        (if dry then [] else [Eff.prepDir backup_path]) ++
          [Eff.printRed "Skipping fonts backup. No fonts directory found."]) := by
  constructor
  · cases hd : fs.isDir fonts_path
    · simp [backupFontsTrace, hd]
    · cases hdry : dry
      · simp only [hdry]
        simp [backupFontsTrace, hd, List.mem_flatMap, List.mem_filter, List.mem_map]
        exact exists_congr fun a => by tauto
      · simp [backupFontsTrace, hd, hdry, ite_self]
  · intro hdir
    simp [backupFontsTrace, hdir]

/-- C10, witness: on a filesystem with the single shlex-safe font file
"good.ttf", the copy of "/fonts/good.ttf" to "/b/good.ttf" is in the trace. -/
theorem C10_fonts_copies_witness :
    Eff.copyFile "/fonts/good.ttf" "/b/good.ttf" ∈
      backupFontsTrace "/b" "/fonts" fontsOkFS false false :=
  (C10_fonts_copies "/b" "/fonts" fontsOkFS false false "/fonts/good.ttf" "/b/good.ttf").1.mpr
    ⟨by decide, rfl, "good.ttf", by decide, by decide, by decide, by decide, by decide⟩

/-- C8, counterexample: the claim says reinstall_configs_sb copies the
backup entry back to the same installed_path.  For the installed path
"/home/u/my cfg" (a space is not shlex-safe) the copy destination is the
shlex-quoted string, a different path from the installed one. -/
theorem C8_config_counterexample :
    reinstallConfigsTrace [("/home/u/my cfg", "app/cfg")] "cfgs" configsCexFS false false =
      [Eff.copyFile "cfgs/app/cfg" (shlexQuote "/home/u/my cfg")] ∧
    shlexQuote "/home/u/my cfg" ≠ "/home/u/my cfg" := by
  refine ⟨by decide, by decide⟩

/-- C8, amended: for a config_mapping entry whose installed path and whose
backup destination (backup_path joined with target) are non-empty and made
only of shlex-safe characters, backup_configs copies the installed file
(with copyfile) or directory (with copytree) to backup_path joined with
target, and reinstall_configs_sb (pointed at the same directory) copies
that backup location back to the installed path, so backing up and then
reinstalling restores the entry to its original installed location. -/
theorem C8_config_roundtrip (installed target bp : String) (fsB fsR : FS) (v : Bool)
    (hiSafe : installed.data.all shlexSafeChar = true) (hiNe : installed ≠ "")
    (hdSafe : (pyJoin bp target).data.all shlexSafeChar = true) (hdNe : pyJoin bp target ≠ "") :
    (fsB.isDir installed = false → fsB.isFile installed = true →
      backupConfigsTrace [(installed, target)] bp fsB false v =
        [Eff.prepDir bp, Eff.mkdir (pathParent (pyJoin bp target)),
          Eff.copyFile installed (pyJoin bp target)]) ∧
    (fsB.isDir installed = true →
      backupConfigsTrace [(installed, target)] bp fsB false v =
        [Eff.prepDir bp, Eff.copyTree installed (pyJoin bp target)]) ∧
    (fsR.isDir (pyJoin bp target) = false → fsR.isFile (pyJoin bp target) = true →
      reinstallConfigsTrace [(installed, target)] bp fsR false v =
        [Eff.copyFile (pyJoin bp target) installed]) ∧
    (fsR.isDir (pyJoin bp target) = true →
      reinstallConfigsTrace [(installed, target)] bp fsR false v =
        [Eff.copyTree (pyJoin bp target) installed]) := by
  have hq : shlexQuote (pyJoin bp target) = pyJoin bp target := shlexQuote_eq_self _ hdNe hdSafe
  have hqi : shlexQuote installed = installed := shlexQuote_eq_self _ hiNe hiSafe
  refine ⟨?_, ?_, ?_, ?_⟩
  · intro hBdir hBfile
    simp [backupConfigsTrace, backupConfigsEntry, hq, hBfile, hBdir]
  · intro hBdir
    simp [backupConfigsTrace, backupConfigsEntry, hq, hBdir]
  · intro hRdir hRfile
    simp [reinstallConfigsTrace, reinstallConfigsEntry, hq, hqi, hRfile, hRdir]
  · intro hRdir
    simp [reinstallConfigsTrace, reinstallConfigsEntry, hq, hqi, hRdir]

/-- C8, witness: the round trip at the concrete file entry mapping
"/home/u/.config/app.cfg" to "app/cfg" and the concrete directory entry
mapping "/home/u/.config/nvim" to "nvim", both under "/backup/configs". -/
theorem C8_config_roundtrip_witness :
    backupConfigsTrace [("/home/u/.config/app.cfg", "app/cfg")] "/backup/configs"
        configsOkSystemFS false false =
      [Eff.prepDir "/backup/configs",
        Eff.mkdir (pathParent (pyJoin "/backup/configs" "app/cfg")),
        Eff.copyFile "/home/u/.config/app.cfg" (pyJoin "/backup/configs" "app/cfg")] ∧
    reinstallConfigsTrace [("/home/u/.config/app.cfg", "app/cfg")] "/backup/configs"
        configsOkBackupFS false false =
      [Eff.copyFile (pyJoin "/backup/configs" "app/cfg") "/home/u/.config/app.cfg"] ∧
    backupConfigsTrace [("/home/u/.config/nvim", "nvim")] "/backup/configs"
        configsDirSystemFS false false =
      [Eff.prepDir "/backup/configs",
        Eff.copyTree "/home/u/.config/nvim" (pyJoin "/backup/configs" "nvim")] ∧
    reinstallConfigsTrace [("/home/u/.config/nvim", "nvim")] "/backup/configs"
        configsDirBackupFS false false =
      [Eff.copyTree (pyJoin "/backup/configs" "nvim") "/home/u/.config/nvim"] :=
  have hfile := C8_config_roundtrip "/home/u/.config/app.cfg" "app/cfg" "/backup/configs"
    configsOkSystemFS configsOkBackupFS false
    (by decide) (by decide) (by decide) (by decide)
  have hdir := C8_config_roundtrip "/home/u/.config/nvim" "nvim" "/backup/configs"
    configsDirSystemFS configsDirBackupFS false
    (by decide) (by decide) (by decide) (by decide)
  ⟨hfile.1 (by decide) (by decide), hfile.2.2.1 (by decide) (by decide),
    hdir.2.1 (by decide), hdir.2.2.2 (by decide)⟩

/-- C6: during dotfile reinstallation the try/except around shutil.copy
handles exactly PermissionError and FileNotFoundError; when every raised
exception is of one of those kinds the loop prints the error, continues with
the remaining files, and completes with every copy attempted. -/
theorem C6_copy_error_handling (pairs : List (String × String))
    (copyRes : String → String → Option PyExc)
    (h : ∀ s d e, copyRes s d = some e → e ≠ PyExc.otherError) :
    (∀ e : PyExc, handledByReinstallDots e = true ↔
      (e = PyExc.permissionError ∨ e = PyExc.fileNotFoundError)) ∧
    ∃ t, reinstallCopyLoop pairs copyRes false = Except.ok t ∧
      ∀ pr ∈ pairs, Eff.copyPy pr.1 pr.2 ∈ t := by
  refine ⟨fun e => by cases e <;> simp [handledByReinstallDots], ?_⟩
  induction pairs with
  | nil => exact ⟨[], rfl, by simp⟩
  | cons pr rest ih =>
    obtain ⟨t, ht, hmem⟩ := ih
    obtain ⟨s, d⟩ := pr
    cases hc : copyRes s d with
    | none =>
      refine ⟨[Eff.mkdir (pathParent d), Eff.copyPy s d] ++ t, ?_, ?_⟩
      · simp [reinstallCopyLoop, hc, ht, Except.map]
      · intro pr hpr
        rcases List.mem_cons.mp hpr with rfl | hpr
        · simp
        · simp [hmem pr hpr]
    | some e =>
      have hhandled : handledByReinstallDots e = true := by
        have := h s d e hc
        cases e <;> simp_all [handledByReinstallDots]
      refine ⟨[Eff.mkdir (pathParent d), Eff.copyPy s d, Eff.printRed "ERROR"] ++ t, ?_, ?_⟩
      · simp [reinstallCopyLoop, hc, hhandled, ht, Except.map]
      · intro pr hpr
        rcases List.mem_cons.mp hpr with rfl | hpr
        · simp
        · simp [hmem pr hpr]

/-- C6, witness: with one pair whose copy raises PermissionError, the loop
completes successfully having attempted the copy. -/
theorem C6_copy_error_handling_witness :
    (∀ e : PyExc, handledByReinstallDots e = true ↔
      (e = PyExc.permissionError ∨ e = PyExc.fileNotFoundError)) ∧
    ∃ t, reinstallCopyLoop [("/back/dots/.bashrc", "/home/u/.bashrc")]
        (fun _ _ => some PyExc.permissionError) false = Except.ok t ∧
      ∀ pr ∈ [("/back/dots/.bashrc", "/home/u/.bashrc")], Eff.copyPy pr.1 pr.2 ∈ t :=
  C6_copy_error_handling [("/back/dots/.bashrc", "/home/u/.bashrc")]
    (fun _ _ => some PyExc.permissionError)
    (fun s d e he => by
      have : PyExc.permissionError = e := Option.some.inj he
      subst this
      decide)

theorem mpDispatchCopies_eq (dotfolders dotfiles : List (String × String)) :
    mpDispatchCopies dotfolders dotfiles =
      dotfolders.map (fun x => Eff.copyDir x.1 x.2) ++
        dotfiles.map (fun x => Eff.copyFile x.1 x.2) := by
  simp [mpDispatchCopies, mpStartJoinLoop_finished, List.map_map]
  rfl

theorem pmbFrom_nil (f : String → String) (acc : List Eff) : pmbFrom f acc [] := by
  intro t1 e t2 d h
  cases t1 <;> simp at h

theorem pmbFrom_cons (f : String → String) (acc : List Eff) (x : Eff) (t : List Eff) :
    pmbFrom f acc (x :: t) ↔
      ((∀ d, writeDest x = some d → Eff.mkdir (f d) ∈ acc) ∧ pmbFrom f (acc ++ [x]) t) := by
  constructor
  · intro h
    refine ⟨fun d hd => by simpa using h [] x t d rfl hd, ?_⟩
    intro t1 e t2 d ht hd
    have := h (x :: t1) e t2 d (by simp [ht]) hd
    simpa [List.append_assoc] using this
  · rintro ⟨h1, h2⟩ t1 e t2 d ht hd
    cases t1 with
    | nil =>
      simp only [List.nil_append, List.cons.injEq] at ht
      obtain ⟨rfl, rfl⟩ := ht
      simpa using h1 d hd
    | cons y t1a =>
      simp only [List.cons_append, List.cons.injEq] at ht
      obtain ⟨rfl, rfl⟩ := ht
      have := h2 t1a e t2 d rfl hd
      simpa [List.append_assoc] using this

theorem pmbFrom_append (f : String → String) (acc : List Eff) (l1 l2 : List Eff)
    (h1 : pmbFrom f acc l1) (h2 : pmbFrom f (acc ++ l1) l2) : pmbFrom f acc (l1 ++ l2) := by
  induction l1 generalizing acc with
  | nil => simpa using h2
  | cons x l1a ih =>
    rw [List.cons_append, pmbFrom_cons]
    rw [pmbFrom_cons] at h1
    refine ⟨h1.1, ih (acc ++ [x]) h1.2 ?_⟩
    simpa [List.append_assoc] using h2

theorem pmbFrom_of_no_writes (f : String → String) (acc : List Eff) (l : List Eff)
    (h : ∀ e ∈ l, writeDest e = none) : pmbFrom f acc l := by
  induction l generalizing acc with
  | nil => exact pmbFrom_nil f acc
  | cons x t ih =>
    rw [pmbFrom_cons]
    refine ⟨fun d hd => ?_, ih (acc ++ [x]) (fun e he => h e (List.mem_cons_of_mem x he))⟩
    rw [h x (List.mem_cons_self _ _)] at hd
    cases hd

theorem pmbFrom_of_covered (f : String → String) (acc : List Eff) (l : List Eff)
    (h : ∀ e ∈ l, ∀ d, writeDest e = some d → Eff.mkdir (f d) ∈ acc) : pmbFrom f acc l := by
  induction l generalizing acc with
  | nil => exact pmbFrom_nil f acc
  | cons x t ih =>
    rw [pmbFrom_cons]
    refine ⟨h x (List.mem_cons_self _ _), ih (acc ++ [x]) ?_⟩
    intro e he d hd
    exact List.mem_append_left _ (h e (List.mem_cons_of_mem x he) d hd)

theorem pmbFrom_flatMap {α : Type} (f : String → String) (l : List α) (g : α → List Eff)
    (h : ∀ a ∈ l, ∀ acc, pmbFrom f acc (g a)) (acc : List Eff) :
    pmbFrom f acc (l.flatMap g) := by
  induction l generalizing acc with
  | nil => exact pmbFrom_nil f acc
  | cons a t ih =>
    rw [List.flatMap_cons]
    exact pmbFrom_append f acc _ _ (h a (List.mem_cons_self _ _) acc)
      (ih (fun b hb => h b (List.mem_cons_of_mem a hb)) _)

theorem pmbFrom_mkdir_then_write (f : String → String) (acc : List Eff) (e : Eff) (d : String)
    (he : writeDest e = some d) : pmbFrom f acc [Eff.mkdir (f d), e] := by
  rw [pmbFrom_cons]
  refine ⟨fun d2 hd2 => by simp [writeDest] at hd2, ?_⟩
  rw [pmbFrom_cons]
  refine ⟨fun d2 hd2 => ?_, pmbFrom_nil f _⟩
  rw [he] at hd2
  injection hd2 with hdd
  subst hdd
  simp

theorem dotPathPairs_append (l1 l2 : List (String × DotOptions)) (dest home : String)
    (condRun : String → Bool) :
    dotPathPairs (l1 ++ l2) dest home condRun =
      dotPathPairs l1 dest home condRun ++ dotPathPairs l2 dest home condRun := by
  induction l1 with
  | nil => rfl
  | cons e rest ih =>
    obtain ⟨p, opts⟩ := e
    cases hc : evaluateCondition opts.backup_condition condRun <;>
      simp [dotPathPairs, hc, ih]

theorem dotfilesToReinstall_append (l1 l2 : List (String × DotOptions)) (dots_path : String)
    (fs : FS) (condRun : String → Bool) :
    dotfilesToReinstall (l1 ++ l2) dots_path fs condRun =
      dotfilesToReinstall l1 dots_path fs condRun ++ dotfilesToReinstall l2 dots_path fs condRun := by
  induction l1 with
  | nil => rfl
  | cons e rest ih =>
    obtain ⟨p, opts⟩ := e
    cases hc : evaluateCondition opts.reinstall_condition condRun <;>
      simp [dotfilesToReinstall, hc, ih]

/-- C4, counterexample: the claim says an entry whose source path does not
exist is skipped without attempting a copy.  For the entry ".gone" on a
filesystem where nothing exists, backup_dotfiles classifies the missing
installed path "/h/.gone" as a dotfile (os.path.isdir is false) and still
dispatches copyfile on it: the copy attempt is in the trace. -/
theorem C4_skip_counterexample :
    emptyFS.pathExists "/h/.gone" = false ∧ emptyFS.isDir "/h/.gone" = false ∧
    Eff.copyFile "/h/.gone" "/b/.gone" ∈
      backupDotfilesTrace [(".gone", { backup_condition := "", reinstall_condition := "" })]
        "/b" "/h" emptyFS (fun _ => false) false false := by
  refine ⟨rfl, rfl, ?_⟩
  decide

/-- C4, amended: an entry whose inclusion predicate evaluates false is
skipped entirely in both directions; backup_configs skips an entry whose
source is neither a directory nor a file; reinstall_dots_sb gets nothing
from an entry that is not a file and whose directory expansion is empty;
but backup_dotfiles does not check existence: an entry whose installed path
is not a directory is dispatched to a file copy regardless of whether it
exists (the failure then happens in a child process and does not propagate
to backup_dotfiles itself). -/
theorem C4_skip_behavior (cfg1 cfg2 : List (String × DotOptions)) (p cp target : String)
    (opts : DotOptions) (dest home dots bp : String) (fs : FS) (condRun : String → Bool)
    (dry v : Bool) :
    (evaluateCondition opts.backup_condition condRun = false →
      dotPathPairs (cfg1 ++ (p, opts) :: cfg2) dest home condRun =
        dotPathPairs cfg1 dest home condRun ++ dotPathPairs cfg2 dest home condRun) ∧
    (evaluateCondition opts.reinstall_condition condRun = false →
      dotfilesToReinstall (cfg1 ++ (p, opts) :: cfg2) dots fs condRun =
        dotfilesToReinstall cfg1 dots fs condRun ++ dotfilesToReinstall cfg2 dots fs condRun) ∧
    (fs.isDir cp = false → fs.isFile cp = false →
      backupConfigsEntry bp fs dry (cp, target) = []) ∧
    (fs.isFile (pyJoin dots p) = false → fs.subfiles (pyJoin dots p) = [] →
      sourcesOfEntry dots fs p = []) ∧
    (evaluateCondition opts.backup_condition condRun = true →
      fs.isDir (backupPairOf dest home p).1 = false →
      Eff.copyFile (backupPairOf dest home p).1 (backupPairOf dest home p).2 ∈
        backupDotfilesTrace (cfg1 ++ (p, opts) :: cfg2) dest home fs condRun false v) := by
  refine ⟨?_, ?_, ?_, ?_, ?_⟩
  · intro hc
    rw [dotPathPairs_append]
    simp [dotPathPairs, hc]
  · intro hc
    rw [dotfilesToReinstall_append]
    simp [dotfilesToReinstall, hc]
  · intro hd hf
    simp [backupConfigsEntry, hd, hf]
  · intro hf hsub
    simp [sourcesOfEntry, hf, hsub]
  · intro hc hdir
    have hpair : backupPairOf dest home p ∈ dotPathPairs (cfg1 ++ (p, opts) :: cfg2) dest home condRun := by
      rw [dotPathPairs_append]
      refine List.mem_append_right _ ?_
      simp [dotPathPairs, hc]
    have hfile : backupPairOf dest home p ∈
        (dotPathPairs (cfg1 ++ (p, opts) :: cfg2) dest home condRun).filter
          (fun x => !fs.isDir x.1) := by
      rw [List.mem_filter]
      exact ⟨hpair, by simp [hdir]⟩
    have hmem : Eff.copyFile (backupPairOf dest home p).1 (backupPairOf dest home p).2 ∈
        List.map (fun x => Eff.copyFile x.1 x.2)
          ((dotPathPairs (cfg1 ++ (p, opts) :: cfg2) dest home condRun).filter
            (fun x => !fs.isDir x.1)) :=
      List.mem_map.mpr ⟨backupPairOf dest home p, hfile, rfl⟩
    simp [backupDotfilesTrace, mpDispatchCopies_eq, hmem]

/-- C4, witness: a condition that evaluates false drops the entry from the
backup pair list, and a missing source is nevertheless dispatched to a
copyfile attempt. -/
theorem C4_skip_behavior_witness :
    dotPathPairs
        (([] : List (String × DotOptions)) ++
          (".gone", { backup_condition := "exit 1", reinstall_condition := "exit 1" }) :: [])
        "/b" "/h" (fun _ => false) = [] ++ [] ∧
    Eff.copyFile "/h/.gone" "/b/.gone" ∈
      backupDotfilesTrace
        (([] : List (String × DotOptions)) ++
          (".gone", { backup_condition := "", reinstall_condition := "" }) :: [])
        "/b" "/h" emptyFS (fun _ => false) false false := by
  constructor
  · exact (C4_skip_behavior [] [] ".gone" "cp" "t"
      { backup_condition := "exit 1", reinstall_condition := "exit 1" }
      "/b" "/h" "/d" "/bp" emptyFS (fun _ => false) false false).1 (by decide)
  · have h := (C4_skip_behavior [] [] ".gone" "cp" "t"
      { backup_condition := "", reinstall_condition := "" }
      "/b" "/h" "/d" "/bp" emptyFS (fun _ => false) false false).2.2.2.2 (by decide) (by decide)
    have hpe : backupPairOf "/b" "/h" ".gone" = ("/h/.gone", "/b/.gone") := by decide
    rw [hpe] at h
    exact h

/-- C5, counterexample: the claim says every file write is preceded by
creating the destination's parent directory.  reinstall_configs_sb copies
the backed-up file "cfgs/app.cfg" to "/home/u/.config/app.cfg" with no
directory creation anywhere in its trace. -/
theorem C5_mkdir_counterexample :
    reinstallConfigsTrace [("/home/u/.config/app.cfg", "app.cfg")] "cfgs" configsNoMkdirFS
        false false = [Eff.copyFile "cfgs/app.cfg" "/home/u/.config/app.cfg"] ∧
    ¬ parentMkdirBefore pathParent
        (reinstallConfigsTrace [("/home/u/.config/app.cfg", "app.cfg")] "cfgs" configsNoMkdirFS
          false false) := by
  have heq : reinstallConfigsTrace [("/home/u/.config/app.cfg", "app.cfg")] "cfgs"
      configsNoMkdirFS false false = [Eff.copyFile "cfgs/app.cfg" "/home/u/.config/app.cfg"] := by
    decide
  refine ⟨heq, ?_⟩
  rw [heq]
  intro h
  have := h [] (Eff.copyFile "cfgs/app.cfg" "/home/u/.config/app.cfg") []
    "/home/u/.config/app.cfg" rfl rfl
  simp at this

/-- C5, amended: in backup_dotfiles, in the file branch of backup_configs
(provided the quoted destination equals the unquoted one, i.e. the joined
destination is non-empty and shlex-safe), and in reinstall_dots_sb, every
copy is preceded by the creation of its destination's parent directory;
reinstall_configs_sb and reinstall_fonts_sb copy without creating parents,
and directory copies create their destination via copytree itself. -/
theorem C5_parent_mkdir (config : List (String × DotOptions))
    (config_mapping : List (String × String)) (dest home dots bp : String) (fs : FS)
    (condRun : String → Bool) (v : Bool)
    (hsafe : ∀ pr ∈ config_mapping,
      pyJoin bp pr.2 ≠ "" ∧ (pyJoin bp pr.2).data.all shlexSafeChar = true) :
    parentMkdirBefore pySplitHead (backupDotfilesTrace config dest home fs condRun false v) ∧
    parentMkdirBefore pathParent (backupConfigsTrace config_mapping bp fs false v) ∧
    parentMkdirBefore pathParent (reinstallDotsTrace config dots home fs condRun false v) := by
  refine ⟨?_, ?_, ?_⟩
  · -- backup_dotfiles: the mkdir loop precedes the dispatched copies
    have htr : backupDotfilesTrace config dest home fs condRun false v =
        ([Eff.prepDir dest] ++ backupCondEffs config ++
          ((dotPathPairs config dest home condRun).filter (fun x => !fs.isDir x.1) ++
            (dotPathPairs config dest home condRun).filter (fun x => fs.isDir x.1)).map
            (fun x => Eff.mkdir (pySplitHead x.2))) ++
        (((dotPathPairs config dest home condRun).filter (fun x => fs.isDir x.1)).map
            (fun x => Eff.copyDir x.1 x.2) ++
          ((dotPathPairs config dest home condRun).filter (fun x => !fs.isDir x.1)).map
            (fun x => Eff.copyFile x.1 x.2)) := by
      simp [backupDotfilesTrace, mpDispatchCopies_eq]
    rw [parentMkdirBefore, htr]
    refine pmbFrom_append _ _ _ _ ?_ ?_
    · refine pmbFrom_of_no_writes _ _ _ (fun e he => ?_)
      simp only [List.mem_append, List.mem_map] at he
      rcases he with (h1 | h2) | h3
      · simp only [List.mem_singleton] at h1
        subst h1
        rfl
      · rcases List.mem_flatMap.mp h2 with ⟨a, _, ha⟩
        unfold evalCondEffs at ha
        split at ha
        · cases ha
        · rcases List.mem_singleton.mp ha with rfl
          rfl
      · rcases h3 with ⟨x, _, rfl⟩
        rfl
    · refine pmbFrom_of_covered _ _ _ (fun e he d hd => ?_)
      have hpairmem : ∃ x ∈ (dotPathPairs config dest home condRun).filter (fun x => !fs.isDir x.1) ++
          (dotPathPairs config dest home condRun).filter (fun x => fs.isDir x.1), x.2 = d := by
        simp only [List.mem_append, List.mem_map] at he
        rcases he with ⟨x, hx, rfl⟩ | ⟨x, hx, rfl⟩
        · exact ⟨x, List.mem_append_right _ hx, by cases hd; rfl⟩
        · exact ⟨x, List.mem_append_left _ hx, by cases hd; rfl⟩
      rcases hpairmem with ⟨x, hx, rfl⟩
      refine List.mem_append_right _ (List.mem_append_right _ ?_)
      exact List.mem_map.mpr ⟨x, hx, rfl⟩
  · -- backup_configs: per-entry mkdir immediately before the file copy
    rw [parentMkdirBefore, backupConfigsTrace]
    refine pmbFrom_append _ _ _ _ ?_ ?_
    · refine pmbFrom_of_no_writes _ _ _ (fun e he => ?_)
      simp only [Bool.false_eq_true, if_false, List.mem_singleton] at he
      subst he
      rfl
    · refine pmbFrom_flatMap _ _ _ (fun pr hpr acc => ?_) _
      obtain ⟨hne, hsafe2⟩ := hsafe pr hpr
      unfold backupConfigsEntry
      simp only [Bool.false_eq_true, if_false]
      rw [shlexQuote_eq_self _ hne hsafe2]
      by_cases hd : fs.isDir pr.1 = true
      · simp only [hd, if_true, if_false]
        refine pmbFrom_of_no_writes _ _ _ (fun e he => ?_)
        simp only [Bool.false_eq_true, if_false, List.mem_singleton] at he
        subst he
        rfl
      · by_cases hf : fs.isFile pr.1 = true
        · simp only [Bool.false_eq_true, if_false, eq_false_of_ne_true hd, hf, if_true]
          exact pmbFrom_mkdir_then_write pathParent acc (Eff.copyFile pr.1 (pyJoin bp pr.2))
            (pyJoin bp pr.2) rfl
        · simp only [Bool.false_eq_true, if_false, eq_false_of_ne_true hd,
            eq_false_of_ne_true hf]
          exact pmbFrom_nil _ _
  · -- reinstall_dots_sb: per-pair mkdir immediately before the copy
    rw [parentMkdirBefore, reinstallDotsTrace]
    refine pmbFrom_append _ _ _ _ ?_ ?_
    · refine pmbFrom_of_no_writes _ _ _ (fun e he => ?_)
      rcases List.mem_flatMap.mp he with ⟨a, _, ha⟩
      unfold evalCondEffs at ha
      split at ha
      · cases ha
      · rcases List.mem_singleton.mp ha with rfl
        rfl
    · refine pmbFrom_flatMap _ _ _ (fun pr hpr acc => ?_) _
      simp only [Bool.false_eq_true, if_false]
      exact pmbFrom_mkdir_then_write pathParent acc (Eff.copyPy pr.1 pr.2) pr.2 rfl

/-- C5, witness: the parent-creation property at a concrete configuration
with one home dotfile and one shlex-safe config mapping entry. -/
theorem C5_parent_mkdir_witness :
    parentMkdirBefore pySplitHead
      (backupDotfilesTrace [(".bashrc", { backup_condition := "", reinstall_condition := "" })]
        "/b" "/h" emptyFS (fun _ => false) false false) ∧
    parentMkdirBefore pathParent
      (backupConfigsTrace [("/home/u/.config/app.cfg", "app/cfg")] "/bp" emptyFS false false) ∧
    parentMkdirBefore pathParent
      (reinstallDotsTrace [(".bashrc", { backup_condition := "", reinstall_condition := "" })]
        "/d" "/h" emptyFS (fun _ => false) false false) :=
  C5_parent_mkdir [(".bashrc", { backup_condition := "", reinstall_condition := "" })]
    [("/home/u/.config/app.cfg", "app/cfg")] "/b" "/h" "/d" "/bp" emptyFS (fun _ => false) false
    (by
      intro pr hpr
      simp only [List.mem_singleton] at hpr
      subst hpr
      exact ⟨by decide, by decide⟩)
